import Mathlib

/-!
Verification development for the recipe bot in src/main.py.

The Python source is shallowly embedded: pure helpers (clamp, paginate,
parse_ingredients) become Lean functions over List/Int/Nat; the sqlite-backed
stores become explicit state values (the settings row as an Option Int, the
per-user history as a chronological list, favorites as a finite map); the
text handler on_text and the fav: callback branch become functions from the
inbound data and the per-call catalog responses to an explicit result record.
Catalog calls that can raise UserError are modelled as Except values.

Python sets have an unspecified iteration order, so the ingredient search is
parameterised by the enumeration of the intersection set that list(common)
produces; theorems quantify over every enumeration consistent with set
membership (validEnum).
-/

namespace RecipeBot

/-- Embeds clamp, src/main.py lines 251-252. -/
def clamp (n lo hi : Int) : Int :=
  if n < lo then lo else if n > hi then hi else n

/-- Embeds DB.get_max, src/main.py lines 113-119: the stored raw max_results
value for the user, none when the settings row is absent, in which case the
code inserts the default and returns 5.  No clamping happens here. -/
def get_max (stored : Option Int) : Int :=
  match stored with
  | some v => v
  | none => 5

/-- Read site src/main.py line 488 (settings_cmd): the value displayed in the
settings prompt.  The source does not clamp here. -/
def settingsCmdShown (stored : Option Int) : Int :=
  get_max stored

/-- Read site src/main.py line 495 (history_cmd). -/
def historyCmdLimit (stored : Option Int) : Int :=
  clamp (get_max stored) 1 10

/-- Read site src/main.py line 510 (favorites_cmd). -/
def favoritesCmdLimit (stored : Option Int) : Int :=
  clamp (get_max stored) 1 10

/-- Read site src/main.py line 622 (on_text). -/
def onTextLimit (stored : Option Int) : Int :=
  clamp (get_max stored) 1 10

/-- Read site src/main.py line 736 (cb, unfav: branch). -/
def unfavCbLimit (stored : Option Int) : Int :=
  clamp (get_max stored) 1 10

/-- Embeds paginate, src/main.py lines 329-334.  The page argument is an
arbitrary integer exactly as in the source; page_size is a natural number
(the source only ever passes the constant 20). -/
def paginate {α : Type} (items : List α) (page : Int) (pageSize : Nat) :
    List α × Nat :=
  let totalPages : Nat := max 1 ((items.length + pageSize - 1) / pageSize)
  let p : Nat := (clamp page 0 ((totalPages : Int) - 1)).toNat
  ((items.drop (p * pageSize)).take pageSize, totalPages)

lemma clamp_mem (n lo hi : Int) (h : lo ≤ hi) :
    lo ≤ clamp n lo hi ∧ clamp n lo hi ≤ hi := by
  unfold clamp
  split_ifs <;> omega

lemma length_le_ceil_mul (len ps : Nat) (hps : 1 ≤ ps) :
    len ≤ (max 1 ((len + ps - 1) / ps)) * ps := by
  have hm := Nat.div_add_mod (len + ps - 1) ps
  have hr : (len + ps - 1) % ps < ps := Nat.mod_lt _ (by omega)
  have hmul : ps * ((len + ps - 1) / ps) ≤ ps * max 1 ((len + ps - 1) / ps) :=
    Nat.mul_le_mul_left _ (Nat.le_max_right _ _)
  rw [Nat.mul_comm]
  set r := (len + ps - 1) % ps with hr1
  set k := ps * ((len + ps - 1) / ps) with hk1
  set K := ps * max 1 ((len + ps - 1) / ps) with hK1
  omega

lemma length_take_le {α : Type} (n : Nat) (l : List α) :
    (List.take n l).length ≤ n := by
  rw [List.length_take]
  exact Nat.min_le_left _ _

/-- C5: paginate returns totalPages = max 1 (ceiling of len over pageSize), a
slice of length at most pageSize taken at the page clamped into
[0, totalPages - 1] (so negative and beyond-range pages degrade to the nearest
valid page), and on the empty list the empty slice with totalPages = 1. -/
theorem paginate_clamped_slice {α : Type} (items : List α) (page : Int)
    (ps : Nat) (hps : 1 ≤ ps) :
    (paginate items page ps).2 = max 1 ((items.length + ps - 1) / ps) ∧
    items.length ≤ (paginate items page ps).2 * ps ∧
    (paginate items page ps).1.length ≤ ps ∧
    (∃ p : Nat, (p : Int) = clamp page 0 (((paginate items page ps).2 : Int) - 1) ∧
      (paginate items page ps).1 = (items.drop (p * ps)).take ps) ∧
    (items = [] → (paginate items page ps).1 = [] ∧ (paginate items page ps).2 = 1) := by
  refine ⟨rfl, length_le_ceil_mul items.length ps hps, length_take_le _ _, ?_, ?_⟩
  · refine ⟨(clamp page 0 (((paginate items page ps).2 : Int) - 1)).toNat, ?_, rfl⟩
    have h1 : 1 ≤ (paginate items page ps).2 := Nat.le_max_left _ _
    have h0 : (0 : Int) ≤ ((paginate items page ps).2 : Int) - 1 := by
      have := h1
      omega
    exact Int.toNat_of_nonneg (clamp_mem page 0 _ h0).1
  · intro h
    subst h
    constructor
    · simp [paginate]
    · show max 1 (((
        [] : List α).length + ps - 1) / ps) = 1
      have hz : (ps - 1) / ps = 0 := Nat.div_eq_of_lt (by omega)
      simp [hz]

/-- C5 witness: the paginate properties evaluated at a concrete out-of-range
negative page. -/
theorem paginate_clamped_slice_witness :
    1 ≤ 2 ∧
    ((paginate [10, 20, 30] (-4 : Int) 2).2 =
        max 1 ((([10, 20, 30] : List Nat).length + 2 - 1) / 2) ∧
      ([10, 20, 30] : List Nat).length ≤ (paginate [10, 20, 30] (-4 : Int) 2).2 * 2 ∧
      (paginate [10, 20, 30] (-4 : Int) 2).1.length ≤ 2 ∧
      (∃ p : Nat, (p : Int) =
          clamp (-4) 0 (((paginate [10, 20, 30] (-4 : Int) 2).2 : Int) - 1) ∧
        (paginate [10, 20, 30] (-4 : Int) 2).1 =
          (([10, 20, 30] : List Nat).drop (p * 2)).take 2) ∧
      (([10, 20, 30] : List Nat) = [] →
        (paginate [10, 20, 30] (-4 : Int) 2).1 = [] ∧
        (paginate [10, 20, 30] (-4 : Int) 2).2 = 1)) :=
  ⟨by decide, paginate_clamped_slice [10, 20, 30] (-4) 2 (by decide)⟩

/-- C2 counterexample: with a raw stored value of 50 (written externally), the
settings_cmd read site displays 50, which is outside [1, 10].  The claim that
every read site clamps is therefore false at this input. -/
theorem settings_cmd_shows_raw_value :
    settingsCmdShown (some 50) = 50 ∧
    ¬ (1 ≤ settingsCmdShown (some 50) ∧ settingsCmdShown (some 50) ≤ 10) := by
  refine ⟨rfl, ?_⟩
  decide

/-- C2 (amended): the four read sites that use maxResults as a list limit
(history_cmd, favorites_cmd, on_text, the unfav callback) clamp it into
[1, 10] for every stored raw value; the settings_cmd display site returns the
raw stored value (default 5) without clamping. -/
theorem limit_read_sites_clamped (stored : Option Int) :
    (1 ≤ historyCmdLimit stored ∧ historyCmdLimit stored ≤ 10) ∧
    (1 ≤ favoritesCmdLimit stored ∧ favoritesCmdLimit stored ≤ 10) ∧
    (1 ≤ onTextLimit stored ∧ onTextLimit stored ≤ 10) ∧
    (1 ≤ unfavCbLimit stored ∧ unfavCbLimit stored ≤ 10) ∧
    settingsCmdShown stored = get_max stored := by
  have h := clamp_mem (get_max stored) 1 10 (by omega)
  exact ⟨h, h, h, h, rfl⟩

lemma clamp_toNat_of_lt (p tp : Nat) (h : p < tp) :
    (clamp (p : Int) 0 ((tp : Int) - 1)).toNat = p := by
  unfold clamp
  split_ifs <;> omega

lemma chunks_flatten {α : Type} (ps : Nat) :
    ∀ (n : Nat) (l : List α), l.length ≤ n * ps →
      ((List.range n).map (fun p => (l.drop (p * ps)).take ps)).flatten = l := by
  intro n
  induction n with
  | zero =>
    intro l h
    rw [Nat.zero_mul] at h
    have hl : l = [] := List.eq_nil_of_length_eq_zero (by omega)
    subst hl
    simp
  | succ n ih =>
    intro l h
    rw [List.range_succ_eq_map, List.map_cons, List.map_map, List.flatten_cons]
    have hmap : (List.range n).map ((fun p => (l.drop (p * ps)).take ps) ∘ Nat.succ) =
        (List.range n).map (fun p => ((l.drop ps).drop (p * ps)).take ps) := by
      apply List.map_congr_left
      intro p _
      show (l.drop (Nat.succ p * ps)).take ps = ((l.drop ps).drop (p * ps)).take ps
      rw [List.drop_drop]
      congr 2
      rw [Nat.succ_mul, Nat.mul_comm p ps]
      exact Nat.add_comm _ _
    rw [hmap]
    have hlen : (l.drop ps).length ≤ n * ps := by
      rw [List.length_drop]
      rw [Nat.succ_mul] at h
      set k := n * ps with hk
      omega
    rw [ih (l.drop ps) hlen]
    simp

/-- C6: concatenating the slices of paginate for page = 0 .. totalPages - 1
reconstructs the input list exactly, every element once, in original order. -/
theorem paginate_pages_reconstruct {α : Type} (items : List α) (ps : Nat)
    (hps : 1 ≤ ps) :
    ((List.range (paginate items 0 ps).2).map
      (fun p : Nat => (paginate items (p : Int) ps).1)).flatten = items := by
  have htp : (paginate items 0 ps).2 = max 1 ((items.length + ps - 1) / ps) := rfl
  have hpage : (List.range (paginate items 0 ps).2).map
      (fun p : Nat => (paginate items (p : Int) ps).1) =
      (List.range (paginate items 0 ps).2).map
      (fun p => (items.drop (p * ps)).take ps) := by
    apply List.map_congr_left
    intro p hp
    have hlt : p < (paginate items 0 ps).2 := List.mem_range.mp hp
    show (items.drop
        ((clamp (p : Int) 0 (((paginate items 0 ps).2 : Int) - 1)).toNat * ps)).take ps =
      (items.drop (p * ps)).take ps
    rw [clamp_toNat_of_lt p _ hlt]
  rw [hpage]
  exact chunks_flatten ps _ items (length_le_ceil_mul items.length ps hps)

/-- C6 witness: pages of size 2 over a five element list concatenate back to
the list. -/
theorem paginate_pages_reconstruct_witness :
    1 ≤ 2 ∧
    ((List.range (paginate [1, 2, 3, 4, 5] 0 2).2).map
      (fun p : Nat => (paginate ([1, 2, 3, 4, 5] : List Nat) (p : Int) 2).1)).flatten =
      [1, 2, 3, 4, 5] :=
  ⟨by decide, paginate_pages_reconstruct [1, 2, 3, 4, 5] 2 (by decide)⟩

/-- A history row as stored by DB.add_history: meal id, meal name and the
insertion timestamp.  The autoincrement id column is modelled by the position
in a chronological list (oldest first). -/
structure HEntry where
  mealId : String
  mealName : String
  ts : Int
deriving DecidableEq

/-- The last n elements of a list. -/
def lastN {α : Type} (l : List α) (n : Nat) : List α :=
  l.drop (l.length - n)

/-- Embeds DB.add_history, src/main.py lines 129-138: INSERT the new row,
then DELETE every row of this user that is not among the 200 with the largest
ids, i.e. keep the last 200 of the chronological list. -/
def add_history (hist : List HEntry) (e : HEntry) : List HEntry :=
  let h := hist ++ [e]
  h.drop (h.length - 200)

/-- Embeds DB.get_history, src/main.py lines 140-146: ORDER BY id DESC
LIMIT limit, i.e. the reversed chronological list truncated to limit. -/
def get_history (hist : List HEntry) (limit : Nat) : List HEntry :=
  hist.reverse.take limit

lemma lastN_eq_reverse_take {α : Type} (l : List α) (n : Nat) :
    lastN l n = (l.reverse.take n).reverse := by
  rw [List.take_reverse, List.reverse_reverse]
  rfl

lemma lastN_append_lastN {α : Type} (l m : List α) (n : Nat) :
    lastN (lastN l n ++ m) n = lastN (l ++ m) n := by
  rw [lastN_eq_reverse_take (lastN l n ++ m), lastN_eq_reverse_take (l ++ m),
    List.reverse_append, List.reverse_append, lastN_eq_reverse_take l,
    List.reverse_reverse, List.take_append_eq_append_take,
    List.take_append_eq_append_take, List.take_take]
  congr 3
  exact Nat.min_eq_left (Nat.sub_le _ _)

lemma add_history_eq_lastN (hist : List HEntry) (e : HEntry) :
    add_history hist e = lastN (hist ++ [e]) 200 := rfl

lemma foldl_add_history (es : List HEntry) :
    ∀ s : List HEntry, es.foldl add_history (lastN s 200) = lastN (s ++ es) 200 := by
  induction es with
  | nil =>
    intro s
    simp
  | cons e es ih =>
    intro s
    rw [List.foldl_cons, add_history_eq_lastN, lastN_append_lastN, ih (s ++ [e]),
      List.append_assoc, List.singleton_append]

/-- C7: after any sequence of insertions starting from an empty history, the
retained rows are exactly the last 200 inserted (hence never more than 200),
and reading the history returns the most recent rows first, up to the
requested limit. -/
theorem history_keeps_latest_200 (es : List HEntry) (limit : Nat) :
    (es.foldl add_history []).length ≤ 200 ∧
    es.foldl add_history [] = es.drop (es.length - 200) ∧
    get_history (es.foldl add_history []) limit = es.reverse.take (min limit 200) := by
  have hfold : es.foldl add_history [] = lastN es 200 := by
    have h := foldl_add_history es []
    simpa [lastN] using h
  refine ⟨?_, ?_, ?_⟩
  · rw [hfold]
    unfold lastN
    rw [List.length_drop]
    omega
  · rw [hfold]
    rfl
  · rw [hfold, get_history, lastN_eq_reverse_take, List.reverse_reverse,
      List.take_take]

/-- Splitting a character list at every occurrence of a separator character,
matching the semantics of Python str.split(sep) for a one character sep:
splitting the empty string yields one empty piece. -/
def splitOnChar (c : Char) : List Char → List (List Char)
  | [] => [[]]
  | x :: xs =>
    match splitOnChar c xs with
    | [] => if x = c then [[], []] else [[x]]
    | y :: ys => if x = c then [] :: y :: ys else (x :: y) :: ys

/-- Python str.strip() restricted to the ASCII whitespace the bot can
receive after Telegram delivers a text message: drop leading and trailing
whitespace characters. -/
def stripChars (l : List Char) : List Char :=
  ((l.dropWhile Char.isWhitespace).reverse.dropWhile Char.isWhitespace).reverse

/-- Embeds parse_ingredients, src/main.py lines 259-262: replace semicolons
and newlines by commas, split on commas, strip each piece, drop empty pieces,
lower-case, replace internal spaces by underscores, keep the first 8. -/
def parseIngredients (s : String) : List String :=
  let cs := s.data.map (fun ch => if ch = ';' ∨ ch = '\n' then ',' else ch)
  let items := ((splitOnChar ',' cs).map stripChars).filter (fun x => !x.isEmpty)
  ((items.map (fun x =>
    (x.map Char.toLower).map (fun ch => if ch = ' ' then '_' else ch))).take 8).map
    (fun l => String.mk l)

/-- A summary record returned by filter.php: idMeal and strMeal as consumed by
the ingredient search.  idMeal is the string the code reads with
it.get("idMeal"), the empty string standing for an absent or empty id (both
are falsy in the source); strMeal is none when the key is absent. -/
structure MealSummary where
  idMeal : String
  strMeal : Option String
deriving DecidableEq

/-- The display name the code reads with it.get("strMeal", "—"). -/
def nameOf (m : MealSummary) : String :=
  m.strMeal.getD "—"

/-- The ids the per-token loop adds to its set: every truthy idMeal of the
response, src/main.py lines 663-668.  Membership in this list is membership
in the Python set ids. -/
def tokenIds (items : List MealSummary) : List String :=
  (items.filter (fun m => !(m.idMeal = "" : Bool))).map (fun m => m.idMeal)

/-- One assignment name_by[mid] = it.get("strMeal", "—"), guarded by the
truthiness of mid. -/
def updName (f : String → String) (m : MealSummary) : String → String :=
  if m.idMeal = "" then f
  else fun x => if x = m.idMeal then nameOf m else f x

/-- The name_by dictionary built across all per-token responses in order,
read with name_by.get(mid, "—"): later assignments win. -/
def buildNameBy (resps : List (List MealSummary)) : String → String :=
  resps.foldl (fun f items => items.foldl updName f) (fun _ => "—")

/-- A UserError message raised by MealDB.get, src/main.py lines 187-201. -/
abbrev ApiError := String

/-- The sequential per-token fetch loop of the ingredient search,
src/main.py lines 661-669: awaits api.filter_ing for each token in order and
propagates the first UserError. -/
def fetchAll (f : String → Except ApiError (List MealSummary)) :
    List String → Except ApiError (List (List MealSummary))
  | [] => .ok []
  | t :: ts =>
    match f t with
    | .error e => .error e
    | .ok r =>
      match fetchAll f ts with
      | .error e => .error e
      | .ok rs => .ok (r :: rs)

/-- The error of the first token whose fetch fails, in token order; none when
every fetch succeeds. -/
def firstErr (f : String → Except ApiError (List MealSummary)) :
    List String → Option ApiError
  | [] => none
  | t :: ts =>
    match f t with
    | .error e => some e
    | .ok _ => firstErr f ts

/-- The tokens for which the sequential loop actually issues a catalog call:
every token up to and including the first failing one. -/
def calledTokens (f : String → Except ApiError (List MealSummary)) :
    List String → List String
  | [] => []
  | t :: ts =>
    match f t with
    | .error _ => [t]
    | .ok _ => t :: calledTokens f ts

/-- The observable outcome of one free text turn of on_text.  Result rows are
(meal id, displayed name) pairs; the UI renders each row as a button labelled
with the name whose callback data is the id with the meal: tag. -/
inductive TextOutcome where
  | backAck
  | menuButton (label : String)
  | setMaxRePrompt
  | setMaxSaved (v : Int)
  | nameFailure (e : ApiError)
  | nameNoResults
  | nameResults (rows : List (String × String))
  | ingRePrompt
  | ingFailure (e : ApiError)
  | ingNoMatches
  | ingResults (rows : List (String × String))
  | useMenu
deriving DecidableEq

/-- The result of one on_text turn: the rendered outcome, the session mode
left in user_data afterwards, and the tokens passed to filter_ing. -/
structure OnTextResult where
  outcome : TextOutcome
  mode : Option String
  ingCalls : List String
deriving DecidableEq

def BTN_ING : String := "🔎 By ingredients"

def BTN_NAME : String := "🍲 By name"

def BTN_AREA : String := "🌍 By cuisine"

def BTN_CAT : String := "🏷️ By category"

def BTN_RANDOM : String := "🎲 Random"

def BTN_HISTORY : String := "🕘 History"

def BTN_FAVS : String := "⭐ Favorites"

def BTN_SETTINGS : String := "⚙️ Settings"

def BTN_HELP : String := "ℹ️ Help"

def BTN_BACK : String := "⬅️ Back"

/-- The non-back menu labels dispatched by on_text lines 593-619, in source
order. -/
def menuLabels : List String :=
  [BTN_HELP, BTN_SETTINGS, BTN_HISTORY, BTN_FAVS, BTN_RANDOM, BTN_NAME,
   BTN_ING, BTN_AREA, BTN_CAT]

/-- The mode after a menu button press: settings_cmd sets set_max, name_cmd
sets name, find_cmd sets ing, the remaining handlers leave the mode alone. -/
def menuMode (text : String) (mode : Option String) : Option String :=
  if text = BTN_SETTINGS then some "set_max"
  else if text = BTN_NAME then some "name"
  else if text = BTN_ING then some "ing"
  else mode

/-- Decimal digit value of a character, none for a non-digit. -/
def digitVal (c : Char) : Option Nat :=
  if '0' ≤ c ∧ c ≤ '9' then some (c.toNat - '0'.toNat) else none

/-- Value of a nonempty all-digit character list. -/
def digitsVal (cs : List Char) : Option Nat :=
  if cs = [] then none
  else
    cs.foldl (fun acc c =>
      match acc, digitVal c with
      | some a, some d => some (a * 10 + d)
      | _, _ => none) (some 0)

/-- Approximation of Python int() on already stripped text: an optional sign
followed by decimal digits (Python additionally accepts underscores between
digits and non-ASCII digits, which no claim depends on). -/
def pyToInt (s : String) : Option Int :=
  match s.data with
  | '+' :: cs => (digitsVal cs).map (fun n => (n : Int))
  | '-' :: cs => (digitsVal cs).map (fun n => -(n : Int))
  | cs => (digitsVal cs).map (fun n => (n : Int))

/-- Embeds the set_max branch of on_text, src/main.py lines 624-635: a valid
number in [1, 10] is saved and clears the mode, anything else re-prompts and
keeps the mode. -/
def setMaxStep (text : String) : OnTextResult :=
  match pyToInt text with
  | some v =>
    if 1 ≤ v ∧ v ≤ 10 then ⟨.setMaxSaved v, none, []⟩
    else ⟨.setMaxRePrompt, some "set_max", []⟩
  | none => ⟨.setMaxRePrompt, some "set_max", []⟩

/-- Embeds the _do closure of the name branch of on_text, src/main.py lines
637-649, together with the surrounding safe_run and the mode pop: the pop
happens only after api.search_name returns, so a raised UserError leaves the
mode untouched. -/
def nameSearch (limit : Nat) (text : String)
    (searchFetch : String → Except ApiError (List MealSummary)) : OnTextResult :=
  match searchFetch text with
  | .error e => ⟨.nameFailure e, some "name", []⟩
  | .ok meals =>
    if meals = [] then ⟨.nameNoResults, none, []⟩
    else
      ⟨.nameResults ((meals.take limit).map (fun m => (m.idMeal, nameOf m))),
        none, []⟩

/-- Embeds the _do closure of the ingredient branch of on_text, src/main.py
lines 652-683, together with safe_run and the mode pop.  enumCommon is the
enumeration of the Python set common produced by list(common); theorems
constrain it through validEnum since set iteration order is unspecified. -/
def ingSearch (limit : Nat) (text : String)
    (ingFetch : String → Except ApiError (List MealSummary))
    (enumCommon : List String) : OnTextResult :=
  let ings := parseIngredients text
  if ings = [] then ⟨.ingRePrompt, some "ing", []⟩
  else
    match fetchAll ingFetch ings with
    | .error e => ⟨.ingFailure e, some "ing", calledTokens ingFetch ings⟩
    | .ok resps =>
      if enumCommon = [] then ⟨.ingNoMatches, none, ings⟩
      else
        ⟨.ingResults ((enumCommon.take limit).map
            (fun mid => (mid, buildNameBy resps mid))), none, ings⟩

/-- Embeds the free text handler on_text, src/main.py lines 582-685, for an
already stripped text message: button dispatch first, then the mode branches,
else the generic use-the-menu reply.  stored is the raw settings row used at
the line 622 read site. -/
def onText (text : String) (mode : Option String) (stored : Option Int)
    (searchFetch ingFetch : String → Except ApiError (List MealSummary))
    (enumCommon : List String) : OnTextResult :=
  if text = BTN_BACK then ⟨.backAck, none, []⟩
  else if text ∈ menuLabels then ⟨.menuButton text, menuMode text mode, []⟩
  else if mode = some "set_max" then setMaxStep text
  else if mode = some "name" then nameSearch (onTextLimit stored).toNat text searchFetch
  else if mode = some "ing" then
    ingSearch (onTextLimit stored).toNat text ingFetch enumCommon
  else ⟨.useMenu, mode, []⟩

/-- Membership in the mathematical intersection of the per-token id sets. -/
def inInter (resps : List (List MealSummary)) (x : String) : Prop :=
  ∀ items ∈ resps, x ∈ tokenIds items

/-- The enumerations of the intersection set that list(common) may produce:
any duplicate-free listing of exactly the members of the intersection. -/
def validEnum (resps : List (List MealSummary)) (l : List String) : Prop :=
  l.Nodup ∧ ∀ x : String, x ∈ l ↔ inInter resps x

/-- The meal ids of a rendered result row list. -/
def rowIds (rows : List (String × String)) : List String :=
  rows.map (fun r => r.1)

/-- Ascending id order, comparing ids as strings (character lists). -/
def idsAscending (ids : List String) : Prop :=
  List.Chain' (fun a b => a.data < b.data) ids


lemma labels_have_tokens : ∀ l ∈ BTN_BACK :: menuLabels, parseIngredients l ≠ [] := by
  decide

lemma fetchAll_of_firstErr
    (f : String → Except ApiError (List MealSummary)) (e : ApiError) :
    ∀ ts : List String, firstErr f ts = some e → fetchAll f ts = .error e := by
  intro ts
  induction ts with
  | nil =>
    intro h
    simp [firstErr] at h
  | cons t ts ih =>
    intro h
    unfold firstErr at h
    unfold fetchAll
    cases hf : f t with
    | error e2 =>
      rw [hf] at h
      simp at h
      rw [h]
    | ok r =>
      rw [hf] at h
      rw [ih h]

lemma firstErr_mem
    (f : String → Except ApiError (List MealSummary)) (e : ApiError) :
    ∀ ts : List String, firstErr f ts = some e → ∃ t ∈ ts, f t = .error e := by
  intro ts
  induction ts with
  | nil =>
    intro h
    simp [firstErr] at h
  | cons t ts ih =>
    intro h
    unfold firstErr at h
    cases hf : f t with
    | error e2 =>
      rw [hf] at h
      simp at h
      exact ⟨t, List.mem_cons_self t ts, by rw [hf, h]⟩
    | ok r =>
      rw [hf] at h
      obtain ⟨t2, ht2, he2⟩ := ih h
      exact ⟨t2, List.mem_cons_of_mem t ht2, he2⟩

lemma rowIds_map_pair (f : String → String) (l : List String) :
    rowIds (l.map (fun mid => (mid, f mid))) = l := by
  unfold rowIds
  rw [List.map_map]
  have hcomp : ((fun r : String × String => r.1) ∘ fun mid => (mid, f mid)) = id := by
    funext mid
    rfl
  rw [hcomp, List.map_id]

/-- Every enumeration valid for a singleton response list is the id list of
that response, provided the id list has no duplicates. -/
lemma validEnum_singleton (items : List MealSummary)
    (h : (tokenIds items).Nodup) : validEnum [items] (tokenIds items) := by
  refine ⟨h, fun x => ?_⟩
  unfold inInter
  rw [List.forall_mem_singleton]

/-- Concrete one token response used in the ingredient search counterexamples
and witnesses: the catalog returns ids 2 then 1. -/
def twoBeefResponse : List MealSummary :=
  [⟨"2", some "Beef"⟩, ⟨"1", some "Apple"⟩]

/-- Concrete one token response with ids 1 then 2. -/
def appleFirstResponse : List MealSummary :=
  [⟨"1", some "Apple"⟩, ⟨"2", some "Beef"⟩]

/-- Catalog stub answering every ingredient token with twoBeefResponse. -/
def ingFetchBeef : String → Except ApiError (List MealSummary) :=
  fun _ => .ok twoBeefResponse

/-- Catalog stub answering every ingredient token with appleFirstResponse. -/
def ingFetchApple : String → Except ApiError (List MealSummary) :=
  fun _ => .ok appleFirstResponse

/-- Catalog stub answering every query with an empty list. -/
def noFetch : String → Except ApiError (List MealSummary) :=
  fun _ => .ok []

/-- Catalog stub raising the timeout UserError on every query. -/
def timeoutFetch : String → Except ApiError (List MealSummary) :=
  fun _ => .error "⏱️ API timeout. Please try again."

/-- Catalog stub that fails with the network UserError on token b only. -/
def failOnBFetch : String → Except ApiError (List MealSummary) :=
  fun t => if t = "b" then .error "🌐 Network error. Please try again." else .ok []

/-- C1 counterexample: one token, every query succeeds, the per-token id set
is the two element set 2, 1.  The order [2, 1] is a valid enumeration of that
set, and the rendered list is then [(2, Beef), (1, Apple)] whose id order
[2, 1] is not ascending: src/main.py lines 677-678 render list(common) with
no sorting, so the order is the unspecified set iteration order and the
ascending, deterministic ordering stated by the claim does not hold. -/
theorem ing_search_not_ascending_cex :
    validEnum [twoBeefResponse] ["2", "1"] ∧
    (onText "a" (some "ing") (some 5) noFetch ingFetchBeef ["2", "1"]).outcome =
      .ingResults [("2", "Beef"), ("1", "Apple")] ∧
    rowIds [("2", "Beef"), ("1", "Apple")] = ["2", "1"] ∧
    ¬ idsAscending ["2", "1"] := by
  refine ⟨validEnum_singleton twoBeefResponse (by decide), by decide, by decide, ?_⟩
  intro h
  unfold idsAscending at h
  rw [List.chain'_pair] at h
  exact absurd h (by decide)

/-- C1 (amended): for every nonempty token list whose per-token queries all
succeed, the rendered ingredient result is the take-limit prefix of the
enumeration that set iteration produces for the intersection: its ids are
pairwise distinct members of the intersection, listed in that unspecified
iteration order, with no ascending order or determinism guarantee. -/
theorem ing_search_renders_enum_order
    (limit : Nat) (text : String)
    (ingFetch : String → Except ApiError (List MealSummary))
    (enum : List String) (resps : List (List MealSummary))
    (hne : parseIngredients text ≠ [])
    (hok : fetchAll ingFetch (parseIngredients text) = .ok resps)
    (hv : validEnum resps enum) (henum : enum ≠ []) :
    (ingSearch limit text ingFetch enum).outcome =
      .ingResults ((enum.take limit).map (fun mid => (mid, buildNameBy resps mid))) ∧
    rowIds ((enum.take limit).map (fun mid => (mid, buildNameBy resps mid))) =
      enum.take limit ∧
    (enum.take limit).Nodup ∧
    ∀ x ∈ enum.take limit, inInter resps x := by
  refine ⟨?_, rowIds_map_pair _ _, (List.take_sublist _ _).nodup hv.1, ?_⟩
  · unfold ingSearch
    rw [if_neg hne, hok]
    simp only [if_neg henum]
  · intro x hx
    exact (hv.2 x).mp (List.mem_of_mem_take hx)

/-- C1 witness: the amended statement evaluated at the concrete one token
run of the counterexample. -/
theorem ing_search_renders_enum_order_witness :
    parseIngredients "a" ≠ [] ∧
    fetchAll ingFetchBeef (parseIngredients "a") = .ok [twoBeefResponse] ∧
    validEnum [twoBeefResponse] ["2", "1"] ∧
    ["2", "1"] ≠ ([] : List String) ∧
    ((ingSearch 5 "a" ingFetchBeef ["2", "1"]).outcome =
      .ingResults ((["2", "1"].take 5).map
        (fun mid => (mid, buildNameBy [twoBeefResponse] mid))) ∧
    rowIds ((["2", "1"].take 5).map
        (fun mid => (mid, buildNameBy [twoBeefResponse] mid))) = ["2", "1"].take 5 ∧
    (["2", "1"].take 5).Nodup ∧
    ∀ x ∈ ["2", "1"].take 5, inInter [twoBeefResponse] x) :=
  ⟨by decide, rfl, validEnum_singleton twoBeefResponse (by decide), by decide,
    ing_search_renders_enum_order 5 "a" ingFetchBeef ["2", "1"] [twoBeefResponse]
      (by decide) rfl (validEnum_singleton twoBeefResponse (by decide)) (by decide)⟩

/-- C3 counterexample: with stored maxResults 1 (limit 1 after clamping) and
an intersection holding the two ids 1 and 2, the rendered result contains
only id 1 while id 2 is also in the intersection: the rendered id set is a
strict subset of the intersection because src/main.py line 678 caps the
rendered list at the clamped maxResults limit. -/
theorem ing_result_misses_intersection_member_cex :
    validEnum [appleFirstResponse] ["1", "2"] ∧
    (onText "a" (some "ing") (some 1) noFetch ingFetchApple ["1", "2"]).outcome =
      .ingResults [("1", "Apple")] ∧
    inInter [appleFirstResponse] "2" ∧
    "2" ∉ rowIds [("1", "Apple")] := by
  refine ⟨validEnum_singleton appleFirstResponse (by decide), by decide, ?_, by decide⟩
  unfold inInter
  rw [List.forall_mem_singleton]
  decide

/-- C3 (amended): for every nonempty token list whose per-token queries all
succeed, the outcome is the no-matches message, with no result list, exactly
when the intersection of the per-token id sets is empty; otherwise the
rendered ids are the first limit elements of the intersection enumeration,
every one a member of the intersection, and they are exactly the members of
the intersection whenever it has at most limit elements. -/
theorem ing_result_ids_vs_intersection
    (limit : Nat) (text : String)
    (ingFetch : String → Except ApiError (List MealSummary))
    (enum : List String) (resps : List (List MealSummary))
    (hne : parseIngredients text ≠ [])
    (hok : fetchAll ingFetch (parseIngredients text) = .ok resps)
    (hv : validEnum resps enum) :
    ((¬ ∃ x, inInter resps x) →
      (ingSearch limit text ingFetch enum).outcome = .ingNoMatches) ∧
    ((ingSearch limit text ingFetch enum).outcome = .ingNoMatches →
      ¬ ∃ x, inInter resps x) ∧
    (∀ rows, (ingSearch limit text ingFetch enum).outcome = .ingResults rows →
      rowIds rows = enum.take limit ∧
      (∀ x ∈ rowIds rows, inInter resps x) ∧
      (enum.length ≤ limit → ∀ x, x ∈ rowIds rows ↔ inInter resps x)) := by
  have hout : (ingSearch limit text ingFetch enum) =
      (if enum = [] then ⟨.ingNoMatches, none, parseIngredients text⟩
       else ⟨.ingResults ((enum.take limit).map
          (fun mid => (mid, buildNameBy resps mid))), none, parseIngredients text⟩) := by
    unfold ingSearch
    rw [if_neg hne, hok]
  have hempty : enum = [] ↔ ¬ ∃ x, inInter resps x := by
    constructor
    · intro h
      rintro ⟨x, hx⟩
      have := (hv.2 x).mpr hx
      rw [h] at this
      exact absurd this (List.not_mem_nil x)
    · intro h
      cases henum : enum with
      | nil => rfl
      | cons a t =>
        exfalso
        apply h
        refine ⟨a, (hv.2 a).mp ?_⟩
        rw [henum]
        exact List.mem_cons_self a t
  refine ⟨?_, ?_, ?_⟩
  · intro h
    rw [hout, if_pos (hempty.mpr h)]
  · intro h
    apply hempty.mp
    by_contra henum
    rw [hout, if_neg henum] at h
    exact absurd h (by simp)
  · intro rows hrows
    have henum : ¬ enum = [] := by
      intro h0
      rw [hout, if_pos h0] at hrows
      exact absurd hrows (by simp)
    rw [hout, if_neg henum] at hrows
    have hrows2 : rows = (enum.take limit).map (fun mid => (mid, buildNameBy resps mid)) := by
      injection hrows with h2
      exact h2.symm
    subst hrows2
    have hids : rowIds ((enum.take limit).map
        (fun mid => (mid, buildNameBy resps mid))) = enum.take limit :=
      rowIds_map_pair _ _
    refine ⟨hids, ?_, ?_⟩
    · intro x hx
      rw [hids] at hx
      exact (hv.2 x).mp (List.mem_of_mem_take hx)
    · intro hlen x
      rw [hids, List.take_of_length_le hlen]
      exact hv.2 x

/-- C3 witness: the amended statement evaluated at the concrete one token run
with limit 1. -/
theorem ing_result_ids_vs_intersection_witness :
    parseIngredients "a" ≠ [] ∧
    fetchAll ingFetchApple (parseIngredients "a") = .ok [appleFirstResponse] ∧
    validEnum [appleFirstResponse] ["1", "2"] ∧
    (((¬ ∃ x, inInter [appleFirstResponse] x) →
      (ingSearch 1 "a" ingFetchApple ["1", "2"]).outcome = .ingNoMatches) ∧
    ((ingSearch 1 "a" ingFetchApple ["1", "2"]).outcome = .ingNoMatches →
      ¬ ∃ x, inInter [appleFirstResponse] x) ∧
    (∀ rows, (ingSearch 1 "a" ingFetchApple ["1", "2"]).outcome = .ingResults rows →
      rowIds rows = ["1", "2"].take 1 ∧
      (∀ x ∈ rowIds rows, inInter [appleFirstResponse] x) ∧
      ((["1", "2"] : List String).length ≤ 1 →
        ∀ x, x ∈ rowIds rows ↔ inInter [appleFirstResponse] x))) :=
  ⟨by decide, rfl, validEnum_singleton appleFirstResponse (by decide),
    ing_result_ids_vs_intersection 1 "a" ingFetchApple ["1", "2"]
      [appleFirstResponse] (by decide) rfl
      (validEnum_singleton appleFirstResponse (by decide))⟩

/-- C4: if any per-token filterByIngredient call raises a UserError, the
sequential loop of src/main.py lines 661-669 propagates the first such error:
the whole ingredient search fails with that error, the error comes from one
of the tokens, and no result list is rendered from the successful queries. -/
theorem ing_search_failfast
    (limit : Nat) (text : String)
    (ingFetch : String → Except ApiError (List MealSummary))
    (enum : List String) (e : ApiError)
    (hne : parseIngredients text ≠ [])
    (herr : firstErr ingFetch (parseIngredients text) = some e) :
    (ingSearch limit text ingFetch enum).outcome = .ingFailure e ∧
    (∃ t ∈ parseIngredients text, ingFetch t = .error e) ∧
    ∀ rows, (ingSearch limit text ingFetch enum).outcome ≠ .ingResults rows := by
  have hfail : (ingSearch limit text ingFetch enum).outcome = .ingFailure e := by
    unfold ingSearch
    rw [if_neg hne, fetchAll_of_firstErr ingFetch e _ herr]
  refine ⟨hfail, firstErr_mem ingFetch e _ herr, ?_⟩
  intro rows h
  rw [hfail] at h
  exact absurd h (by simp)

/-- C4 witness: token a succeeds, token b raises the network UserError; the
whole search fails with that error. -/
theorem ing_search_failfast_witness :
    parseIngredients "a, b" ≠ [] ∧
    firstErr failOnBFetch (parseIngredients "a, b") =
      some "🌐 Network error. Please try again." ∧
    ((ingSearch 5 "a, b" failOnBFetch []).outcome =
      .ingFailure "🌐 Network error. Please try again." ∧
    (∃ t ∈ parseIngredients "a, b",
      failOnBFetch t = .error "🌐 Network error. Please try again.") ∧
    ∀ rows, (ingSearch 5 "a, b" failOnBFetch []).outcome ≠ .ingResults rows) :=
  ⟨by decide, rfl,
    ing_search_failfast 5 "a, b" failOnBFetch []
      "🌐 Network error. Please try again." (by decide) rfl⟩

/-- C8: a free text line whose tokens normalize to nothing (for example only
separators and spaces) makes the ingredient branch re-prompt with the
example, issue no catalog call, and keep the session in the ing mode; such a
line can never be a menu button, because every button label parses to a
nonempty token list. -/
theorem empty_token_line_reprompts
    (text : String) (stored : Option Int)
    (searchFetch ingFetch : String → Except ApiError (List MealSummary))
    (enum : List String)
    (h : parseIngredients text = []) :
    onText text (some "ing") stored searchFetch ingFetch enum =
      ⟨.ingRePrompt, some "ing", []⟩ := by
  have hb : text ≠ BTN_BACK := by
    intro he
    rw [he] at h
    exact absurd h (labels_have_tokens BTN_BACK (List.mem_cons_self _ _))
  have hm : text ∉ menuLabels := by
    intro hmem
    exact absurd h (labels_have_tokens text (List.mem_cons_of_mem _ hmem))
  unfold onText
  rw [if_neg hb, if_neg hm, if_neg (by decide), if_neg (by decide), if_pos rfl]
  unfold ingSearch
  rw [if_pos h]

/-- C8 witness: the line consisting of a single comma parses to no tokens and
only re-prompts. -/
theorem empty_token_line_reprompts_witness :
    parseIngredients "," = [] ∧
    onText "," (some "ing") none noFetch noFetch [] =
      ⟨.ingRePrompt, some "ing", []⟩ :=
  ⟨by decide, empty_token_line_reprompts "," none noFetch noFetch [] (by decide)⟩

/-- C9: free text in the name mode that is not a menu button runs the name
search; when api.search_name raises a UserError the failure outcome is shown
and the mode is still name, because the pop on src/main.py line 640 is
reached only after the call returns; whenever the call returns, with results
or with an empty list, the mode is cleared. -/
theorem name_mode_cleared_only_after_return
    (text : String) (stored : Option Int)
    (searchFetch ingFetch : String → Except ApiError (List MealSummary))
    (enum : List String)
    (hb : text ≠ BTN_BACK) (hm : text ∉ menuLabels) :
    (∀ e, searchFetch text = .error e →
      onText text (some "name") stored searchFetch ingFetch enum =
        ⟨.nameFailure e, some "name", []⟩) ∧
    (∀ meals, searchFetch text = .ok meals →
      (onText text (some "name") stored searchFetch ingFetch enum).mode = none) := by
  unfold onText
  rw [if_neg hb, if_neg hm, if_neg (by decide), if_pos rfl]
  constructor
  · intro e he
    unfold nameSearch
    rw [he]
  · intro meals hms
    unfold nameSearch
    rw [hms]
    cases meals <;> rfl

/-- C9 witness: a timed out name search for pasta keeps the mode name. -/
theorem name_mode_cleared_only_after_return_witness :
    "pasta" ≠ BTN_BACK ∧ "pasta" ∉ menuLabels ∧
    onText "pasta" (some "name") none timeoutFetch noFetch [] =
      ⟨.nameFailure "⏱️ API timeout. Please try again.", some "name", []⟩ :=
  ⟨by decide, by decide,
    (name_mode_cleared_only_after_return "pasta" none timeoutFetch noFetch []
      (by decide) (by decide)).1 "⏱️ API timeout. Please try again." rfl⟩

/-- Python truthy-or on an optional string: meal.get("strMeal") or "—"
falls back on the default both when the key is absent and when the value is
the empty string. -/
def pyOr (o : Option String) (d : String) : String :=
  match o with
  | some s => if s = "" then d else s
  | none => d

/-- The store action performed by the fav: branch of cb. -/
inductive FavAction where
  | skipped
  | removed
  | added (title : String)
  | failed (e : ApiError)
deriving DecidableEq

/-- Embeds the fav: branch of cb, src/main.py lines 711-728: an empty id
returns early; an existing favorite is deleted; otherwise api.lookup fetches
the detail record (meals of lookup.php are modelled with the same summary
fields the branch reads), the title falls back to the em dash placeholder
when the record is missing or unnamed, and the row is upserted.  favs is the
favorites table of this user as a map from meal id to the stored name. -/
def favCallback (favs : String → Option String) (mid : String)
    (lookup : String → Except ApiError (Option MealSummary)) :
    FavAction × (String → Option String) :=
  if mid = "" then (.skipped, favs)
  else if (favs mid).isSome then
    (.removed, fun x => if x = mid then none else favs x)
  else
    match lookup mid with
    | .error e => (.failed e, favs)
    | .ok om =>
      let title :=
        match om with
        | some m => pyOr m.strMeal "—"
        | none => "—"
      (.added title, fun x => if x = mid then some title else favs x)

/-- C10: toggling the favorite for a nonempty id that is not currently a
favorite always inserts a row, even when the catalog lookup returns no
record: in that case the row is stored with the placeholder name, and the
toggle is neither skipped nor failed. -/
theorem fav_toggle_inserts_placeholder
    (favs : String → Option String) (mid : String)
    (lookup : String → Except ApiError (Option MealSummary))
    (h1 : mid ≠ "") (h2 : favs mid = none) (h3 : lookup mid = .ok none) :
    (favCallback favs mid lookup).1 = .added "—" ∧
    (favCallback favs mid lookup).2 mid = some "—" := by
  have hres : favCallback favs mid lookup =
      (.added "—", fun x => if x = mid then some "—" else favs x) := by
    unfold favCallback
    rw [if_neg h1, h2, h3]
    rfl
  rw [hres]
  refine ⟨rfl, ?_⟩
  show (if mid = mid then some "—" else favs mid) = some "—"
  rw [if_pos rfl]

/-- C10 witness: an empty favorites table, id 52772, and a lookup answering
with no record still produce an inserted row named with the placeholder. -/
theorem fav_toggle_inserts_placeholder_witness :
    "52772" ≠ "" ∧
    (fun _ : String => (none : Option String)) "52772" = none ∧
    (fun _ : String => (.ok none : Except ApiError (Option MealSummary))) "52772" =
      .ok none ∧
    ((favCallback (fun _ => none) "52772" (fun _ => .ok none)).1 = .added "—" ∧
    (favCallback (fun _ => none) "52772" (fun _ => .ok none)).2 "52772" = some "—") :=
  ⟨by decide, rfl, rfl,
    fav_toggle_inserts_placeholder (fun _ => none) "52772" (fun _ => .ok none)
      (by decide) rfl rfl⟩

end RecipeBot
